import Mathlib

/-!
Verification of the center-circle detection core of the hulk repository.

The development shallowly embeds the integer convolution engine
(crates/edge_detection/src/conv.rs), the circle RANSAC components
(crates/ransac/src/circles/circle.rs and
crates/calibration/src/circles/circle_ransac.rs with
circle_fitting_model.rs), and the detection pipeline decision logic
(crates/vision/src/calibration_center_circle_detection.rs).

Machine integers (i32 accumulators, i16 outputs) are embedded as ℤ with
the clamp bounds passed explicitly; all accumulation in the source happens
before the single shift/clamp, and sums, products and the pairing
rearrangements proved here are ring identities, so equality over ℤ implies
equality of the wrapped i32 values as well.  f32/f64 values are embedded
as ℚ; an exact floor-square-root model stands for the floating-point
square root (the concrete inputs evaluated below are chosen so that every
square root is exact).
-/

/-! ## Convolution engine: crates/edge_detection/src/conv.rs -/

/-- Rust `clamp(min_allowed_sum, max_allowed_sum)` on the accumulator. -/
def clampI (lo hi v : ℤ) : ℤ := max lo (min v hi)

/-- Arithmetic right shift of a (signed) accumulator by `s` bits:
`i32::shr` rounds toward negative infinity, i.e. floor division by `2^s`. -/
def asr (v : ℤ) (s : ℕ) : ℤ := Int.fdiv v (2 ^ s)

/-- `calculate_divisor` (conv.rs:386): for `scale_value > 1` the shift is
`trailing_zeros(next_power_of_two(scale_value))`, i.e. `⌈log₂ scale⌉`,
otherwise 0. -/
def calculate_divisor (scale_value : ℕ) : ℕ :=
  if 1 < scale_value then Nat.clog 2 scale_value else 0

/-- Modelled from the spec: `is_ksize_odd` is imported by conv.rs from the
crate root, whose version with this helper is not in the sources; the spec
(§3, Kernel invariants `K odd, K ≥ 3`) and the call site (guarding the
middle kernel tap of the symmetric path) fix it as the parity test. -/
def is_ksize_odd (ksize : ℕ) : Bool := ksize % 2 == 1

/-- `is_kernel_symmetric` (conv.rs:149): slice equality
`kernel[..K/2] == kernel[K - K/2 ..]`, i.e. the first half equals the
second half elementwise WITHOUT reversal: `kernel i = kernel (K - K/2 + i)`
for `i < K/2`. -/
def is_kernel_symmetric (ksize : ℕ) (kernel : ℕ → ℤ) : Bool :=
  decide (∀ i < ksize / 2, kernel i = kernel (ksize - ksize / 2 + i))

/-- A transposed image: the value at column `c`, row `r` of the
column-major storage (flat index `c * nrows + r`). -/
abbrev TMat := ℕ → ℕ → ℤ

/-- The inner sum of `piecewise_horizontal_convolution_mut` (conv.rs:199):
the kernel window over rows `r - K/2 .. r + K/2` of column `c`. -/
def horizSum (ksize : ℕ) (u : ℕ → ℤ) (img : TMat) (c r : ℕ) : ℤ :=
  ∑ m ∈ Finset.range ksize, u m * img c (r - ksize / 2 + m)

/-- `piecewise_horizontal_convolution_mut` (conv.rs:154): every column is
processed; rows `K/2 .. nrows - K/2` of the destination receive the
shifted, clamped window sum, all other destination entries keep their
previous contents. -/
def piecewise_horizontal_convolution_mut (ksize nrows ncols : ℕ) (u : ℕ → ℤ)
    (scale_value : ℕ) (lo hi : ℤ) (img dst0 : TMat) : TMat :=
  fun c r =>
    if c < ncols ∧ ksize / 2 ≤ r ∧ r < nrows - ksize / 2 then
      clampI lo hi (asr (horizSum ksize u img c r) (calculate_divisor scale_value))
    else dst0 c r

/-- Accumulator of the non-symmetric chunked path of
`piecewise_vertical_convolution_mut` (conv.rs:260-269): per kernel tap `k`,
`acc += value * piece` over the K columns around `c` at row `r`. -/
def vertAccNaive (ksize : ℕ) (v : ℕ → ℤ) (img : TMat) (c r : ℕ) : ℤ :=
  ∑ k ∈ Finset.range ksize, img (c - ksize / 2 + k) r * v k

/-- Accumulator of the symmetric chunked path (conv.rs:279-301): the middle
tap (odd K only) plus, for each pair `i`, `(v1 + v2) * piece` with the pair
of columns `i` and `K - 1 - i` and the single multiplier `kernel i`. -/
def vertAccSymmetric (ksize : ℕ) (v : ℕ → ℤ) (img : TMat) (c r : ℕ) : ℤ :=
  (if is_ksize_odd ksize then img c r * v (ksize / 2) else 0) +
    ∑ i ∈ Finset.range (ksize / 2),
      (img (c - ksize / 2 + i) r + img (c - ksize / 2 + (ksize - 1 - i)) r) * v i

/-- Accumulator of the chunking-remainder block (conv.rs:314-345), which
does not branch on symmetry: per tap `k`, `acc += piece * value`. -/
def vertAccRemainder (ksize : ℕ) (v : ℕ → ℤ) (img : TMat) (c r : ℕ) : ℤ :=
  ∑ k ∈ Finset.range ksize, v k * img (c - ksize / 2 + k) r

/-- Rows written by the exact 16-row chunks of the vertical pass. -/
def inChunkRows (nrows r : ℕ) : Prop := r < nrows - nrows % 16

/-- Rows written by the remainder block: only when the remainder is nonzero
and at least `K/2` (conv.rs:314). -/
def inRemainderRows (ksize nrows r : ℕ) : Prop :=
  nrows % 16 ≠ 0 ∧ ksize / 2 ≤ nrows % 16 ∧ nrows - nrows % 16 ≤ r ∧ r < nrows

instance (nrows r : ℕ) : Decidable (inChunkRows nrows r) := by
  unfold inChunkRows; infer_instance

instance (ksize nrows r : ℕ) : Decidable (inRemainderRows ksize nrows r) := by
  unfold inRemainderRows; infer_instance

/-- `piecewise_vertical_convolution_mut` (conv.rs:212): columns
`K/2 .. ncols - K/2`; rows covered by full 16-row chunks use the symmetric
or naive accumulator according to `is_kernel_symmetric`, rows covered by
the remainder block use the remainder accumulator; every other destination
entry keeps its previous contents. -/
def piecewise_vertical_convolution_mut (ksize nrows ncols : ℕ) (v : ℕ → ℤ)
    (scale_value : ℕ) (lo hi : ℤ) (img dst0 : TMat) : TMat :=
  fun c r =>
    if ksize / 2 ≤ c ∧ c < ncols - ksize / 2 then
      if inChunkRows nrows r then
        clampI lo hi (asr
          (if is_kernel_symmetric ksize v then vertAccSymmetric ksize v img c r
           else vertAccNaive ksize v img c r)
          (calculate_divisor scale_value))
      else if inRemainderRows ksize nrows r then
        clampI lo hi (asr (vertAccRemainder ksize v img c r)
          (calculate_divisor scale_value))
      else dst0 c r
    else dst0 c r

/-- `direct_convolution_mut` (conv.rs:39): interior pixels receive the full
2D window sum, shifted and clamped; the kernel is stored column-major, so
the weight multiplying `img (c - K/2 + kj) (r - K/2 + ki)` is entry
`(row ki, column kj)`. -/
def direct_convolution_mut (ksize nrows ncols : ℕ) (kernel : ℕ → ℕ → ℤ)
    (scale_value : ℕ) (lo hi : ℤ) (img dst0 : TMat) : TMat :=
  fun c r =>
    if (ksize / 2 ≤ c ∧ c < ncols - ksize / 2) ∧
        ksize / 2 ≤ r ∧ r < nrows - ksize / 2 then
      clampI lo hi (asr
        (∑ kj ∈ Finset.range ksize, ∑ ki ∈ Finset.range ksize,
          kernel ki kj * img (c - ksize / 2 + kj) (r - ksize / 2 + ki))
        (calculate_divisor scale_value))
    else dst0 c r

/-- `piecewise_2d_convolution_mut` (conv.rs:350): the horizontal pass into
`dst`, then the vertical pass reading a copy of `dst` and writing `dst`. -/
def piecewise_2d_convolution_mut (ksize nrows ncols : ℕ) (u v : ℕ → ℤ)
    (scale_value : ℕ) (lo hi : ℤ) (img dst0 : TMat) : TMat :=
  let h := piecewise_horizontal_convolution_mut ksize nrows ncols u
    scale_value lo hi img dst0
  piecewise_vertical_convolution_mut ksize nrows ncols v scale_value lo hi h h

/-- The K×K outer product `u·vᵀ`: entry (row i, column j) is `u i * v j`. -/
def outerKernel (u v : ℕ → ℤ) : ℕ → ℕ → ℤ := fun i j => u i * v j

/-! ## Circle RANSAC: crates/ransac/src/circles/circle.rs

f32 coordinates are embedded as ℚ; `f32_sqrt` models the square root used
for `norm()` (exact on the perfect squares evaluated below).  The
caller-supplied `impl Rng` is embedded as the stream of index choices that
`choose_multiple` extracts from it: one list of indices per RANSAC
iteration. -/

/-- Floor square root of a natural number by bounded linear search: the set
of `k ≤ n` with `k² ≤ n` is an initial segment, so its size minus one is
`⌊√n⌋`.  Written without well-founded recursion so that concrete witnesses
reduce inside the kernel. -/
def natSqrtModel (n : ℕ) : ℕ :=
  ((List.range (n + 1)).filter fun k => k * k ≤ n).length - 1

/-- Stand-in for the f32 square root used by `norm()`: floor square roots
of numerator and denominator (the same model as `Rat.sqrt`), exact on the
perfect squares all concrete inputs below are chosen to produce. -/
def f32_sqrt (q : ℚ) : ℚ := mkRat (Int.ofNat (natSqrtModel q.num.toNat)) (natSqrtModel q.den)

/-- A 2D point (`Point2<Frame>`); the phantom frame tag is erased. -/
structure Point2Q where
  x : ℚ
  y : ℚ
deriving DecidableEq, Repr

/-- `(a - b).norm_squared()`. -/
def normSquaredDiff (a b : Point2Q) : ℚ := (a.x - b.x) ^ 2 + (a.y - b.y) ^ 2

/-- `Circle<Frame>` of the geometry crate. -/
structure CircleQ where
  center : Point2Q
  radius : ℚ
deriving DecidableEq, Repr

/-- The `Parameters` struct (circle.rs:10).  The constructor computes
`minimum_furthest_points_distance_squared = (2·R·sin(π/8))²`; sin(π/8) is
irrational, so the parameter record carries the already-computed value. -/
structure ParametersQ where
  radius : ℚ
  inlier_threshold_on_residual : ℚ
  minimum_furthest_points_distance_squared : ℚ
deriving DecidableEq, Repr

/-- `circle_from_three_points` (circle.rs:266): perpendicular-bisector
intersection.  ℚ division by zero yields 0 where f32 would produce
inf/NaN; every concrete input used below has nonzero denominators. -/
def circle_from_three_points (a b c : Point2Q) : CircleQ :=
  let ba_diff_x := b.x - a.x
  let ba_diff_y := b.y - a.y
  let cb_diff_x := c.x - b.x
  let cb_diff_y := c.y - b.y
  let ab_mid_x := (a.x + b.x) / 2
  let ab_mid_y := (a.y + b.y) / 2
  let bc_mid_x := (b.x + c.x) / 2
  let bc_mid_y := (b.y + c.y) / 2
  let ab_perpendicular_slope := -(ba_diff_x / ba_diff_y)
  let bc_perpendicular_slope := -(cb_diff_x / cb_diff_y)
  let center_x := ((bc_mid_y - ab_mid_y) + ab_perpendicular_slope * ab_mid_x -
      bc_perpendicular_slope * bc_mid_x) /
    (ab_perpendicular_slope - bc_perpendicular_slope)
  let center_y := ab_perpendicular_slope * (center_x - ab_mid_x) + ab_mid_y
  let center : Point2Q := ⟨center_x, center_y⟩
  let radius := f32_sqrt ((a.x - center_x) ^ 2 + (a.y - center_y) ^ 2)
  ⟨center, radius⟩

/-- `sampled_population_size` (circle.rs:189): `0.15 · N` if that exceeds
100 (truncated to integer), otherwise all N points. -/
def sampled_population_size (src_point_count : ℕ) : ℕ :=
  let candidate_sample_size : ℚ := (src_point_count : ℚ) * (15 / 100)
  if 100 < candidate_sample_size then candidate_sample_size.floor.toNat
  else src_point_count

/-- `choose_multiple(rng, amount)` on a slice, embedded as looking up the
indices the generator produced (at most `amount` of them). -/
def choose_multiple (pts : List Point2Q) (amount : ℕ) (idxs : List ℕ) : List Point2Q :=
  (idxs.take amount).filterMap fun i => pts.get? i

/-- The soft inlier score summed over the sampled population
(circle.rs:227-239): points within the residual threshold contribute
`1 - |residual| / τ`. -/
def scoreOverSample (parameters : ParametersQ) (center : Point2Q)
    (sample : List Point2Q) : ℚ :=
  (sample.map fun point =>
    let distance_squared := normSquaredDiff point center
    let residual_abs := |distance_squared - parameters.radius ^ 2|
    if residual_abs ≤ parameters.inlier_threshold_on_residual then
      1 - residual_abs / parameters.inlier_threshold_on_residual
    else 0).sum

/-- One iteration of the closure in `get_best_candidate` (circle.rs:203-241):
take the first three sampled points, reject near-collinear triples, fit,
apply the fast radius check, and score over the sample.  The source indexes
`unused_points[0..3]` and would panic on fewer than three sampled points;
that branch returns `none` here (it is unreachable from `next_candidate`,
whose guard ensures at least three points are sampled). -/
def attemptCandidate (parameters : ParametersQ) (sample : List Point2Q) :
    Option (CircleQ × ℚ) :=
  match sample with
  | point1 :: point2 :: point3 :: _ =>
    let ab_squared := normSquaredDiff point1 point2
    let bc_squared := normSquaredDiff point2 point3
    let ca_squared := normSquaredDiff point3 point1
    if ab_squared < parameters.minimum_furthest_points_distance_squared ∧
        bc_squared < parameters.minimum_furthest_points_distance_squared ∧
        ca_squared < parameters.minimum_furthest_points_distance_squared then
      none
    else
      let candidate_circle := circle_from_three_points point1 point2 point3
      let initial_max_variance := 3 / 2 * parameters.inlier_threshold_on_residual
      if initial_max_variance < (candidate_circle.radius - parameters.radius) ^ 2 then
        none
      else
        some (candidate_circle, scoreOverSample parameters candidate_circle.center sample)
  | _ => none

/-- `Iterator::max_by_key` keeps the LAST maximal element; scores are
compared through `NotNan::new(..).unwrap_or_default()` (ℚ has no NaN). -/
def maxByScoreLast (candidates : List (CircleQ × ℚ)) : Option (CircleQ × ℚ) :=
  candidates.foldl
    (fun best c =>
      match best with
      | none => some c
      | some b => if b.2 ≤ c.2 then some c else some b)
    none

/-- The final re-evaluation over ALL remaining points (circle.rs:245-262):
inlier mask, aggregate score, and normalization by the point count. -/
def buildFinalResult (parameters : ParametersQ) (src_unused_points : List Point2Q)
    (circle : CircleQ) : CircleQ × List Bool × ℚ :=
  let radius_squared := parameters.radius ^ 2
  let inlier_points_mask := src_unused_points.map fun point =>
    decide (|normSquaredDiff point circle.center - radius_squared| ≤
      parameters.inlier_threshold_on_residual)
  let score := (src_unused_points.map fun point =>
    let residual_abs := |normSquaredDiff point circle.center - radius_squared|
    if residual_abs ≤ parameters.inlier_threshold_on_residual then
      1 - residual_abs / parameters.inlier_threshold_on_residual
    else 0).sum
  (circle, inlier_points_mask, score / (src_unused_points.length : ℚ))

/-- `get_best_candidate` (circle.rs:178). -/
def get_best_candidate (src_unused_points : List Point2Q) (iterations : ℕ)
    (parameters : ParametersQ) (random_number_generator : ℕ → List ℕ) :
    Option (CircleQ × List Bool × ℚ) :=
  if src_unused_points.length < 3 then none
  else
    let pop := sampled_population_size src_unused_points.length
    let best := maxByScoreLast ((List.range iterations).filterMap fun t =>
      attemptCandidate parameters
        (choose_multiple src_unused_points pop (random_number_generator t)))
    best.map fun bc => buildFinalResult parameters src_unused_points bc.1

/-- `partition_map` over `mask.zip(points)` (circle.rs:60-69, 143-163):
inliers on the left, the rest on the right; `zip` truncates to the shorter
list. -/
def partitionByMask : List Bool → List Point2Q → List Point2Q × List Point2Q
  | is_inlier :: mask, point :: points =>
    let rest := partitionByMask mask points
    if is_inlier then (point :: rest.1, rest.2) else (rest.1, point :: rest.2)
  | _, _ => ([], [])

/-- `RansacResultCircle` (circle.rs:17). -/
structure RansacResultCircle where
  circle : CircleQ
  used_points : List Point2Q
  score : ℚ
deriving DecidableEq, Repr

/-- `RansacCircle` (circle.rs:23). -/
structure RansacCircle where
  unused_points : List Point2Q
  parameters : ParametersQ
deriving DecidableEq, Repr

/-- `RansacCircle::next_candidate` (circle.rs:47): state passing made
explicit; the mutated state is returned alongside the result. -/
def RansacCircle.next_candidate (self : RansacCircle)
    (random_number_generator : ℕ → List ℕ) (iterations : ℕ) :
    Option RansacResultCircle × RansacCircle :=
  match get_best_candidate self.unused_points iterations self.parameters
      random_number_generator with
  | none => (none, self)
  | some (candidate_circle, inliers_mask, score) =>
    let parts := partitionByMask inliers_mask self.unused_points
    (some { circle := candidate_circle, used_points := parts.1, score := score },
     { self with unused_points := parts.2 })

/-- `RansacResultCircleWithTransformation` (circle.rs:93). -/
structure RansacResultCircleWithTransformation where
  circle : CircleQ
  used_points_original : List Point2Q
  used_points_transformed : List Point2Q
  score : ℚ
deriving DecidableEq, Repr

/-- `RansacCircleWithTransformation` (circle.rs:86). -/
structure RansacCircleWithTransformation where
  parameters : ParametersQ
  unused_points_original : List Point2Q
  unused_points_transformed : List Point2Q
deriving DecidableEq, Repr

/-- `RansacCircleWithTransformation::new` (circle.rs:101): each input point
is passed to the transformer once; points without a projection are dropped,
the rest are unzipped into the two parallel vectors.  As for `ParametersQ`,
the numeric parameter values are taken as given. -/
def RansacCircleWithTransformation.new (parameters : ParametersQ)
    (points : List Point2Q) (transformer_function : Point2Q → Option Point2Q) :
    RansacCircleWithTransformation :=
  let pairs := points.filterMap fun point =>
    (transformer_function point).map fun transformed => (point, transformed)
  { parameters := parameters
    unused_points_original := pairs.map Prod.fst
    unused_points_transformed := pairs.map Prod.snd }

/-- `RansacCircleWithTransformation::next_candidate` (circle.rs:131): the
candidate search runs on the transformed points; the same inlier mask is
applied to both parallel vectors. -/
def RansacCircleWithTransformation.next_candidate
    (self : RansacCircleWithTransformation)
    (random_number_generator : ℕ → List ℕ) (iterations : ℕ) :
    Option RansacResultCircleWithTransformation × RansacCircleWithTransformation :=
  match get_best_candidate self.unused_points_transformed iterations
      self.parameters random_number_generator with
  | none => (none, self)
  | some (candidate_circle, inliers_mask, score) =>
    let partsT := partitionByMask inliers_mask self.unused_points_transformed
    let partsO := partitionByMask inliers_mask self.unused_points_original
    (some { circle := candidate_circle
            used_points_original := partsO.1
            used_points_transformed := partsT.1
            score := score },
     { self with unused_points_original := partsO.2
                 unused_points_transformed := partsT.2 })

/-- A sequence of `next_candidate` calls: call i consumes the i-th per-call
random stream.  Models "`next_candidate` called k times on the same initial
point set". -/
def runSequence (iterations : ℕ) :
    RansacCircleWithTransformation → (ℕ → ℕ → List ℕ) → ℕ →
    List (Option RansacResultCircleWithTransformation) × RansacCircleWithTransformation
  | st, _, 0 => ([], st)
  | st, gens, Nat.succ k =>
    let step := st.next_candidate (gens 0) iterations
    let rest := runSequence iterations step.2 (fun n => gens (n + 1)) k
    (step.1 :: rest.1, rest.2)

/-! ## Calibration crate RANSAC:
crates/calibration/src/circles/circle_ransac.rs and
circle_fitting_model.rs (generic over f32/f64, embedded as ℚ). -/

/-- `GenericCircle` (circle_fitting_model.rs:9). -/
structure GenericCircle where
  radius : ℚ
  centre : Point2Q
deriving DecidableEq, Repr

/-- `CircleFittingModel` (circle_fitting_model.rs:36). -/
structure CircleFittingModel where
  candidate_circle : GenericCircle
  centre_distance_penalty_threshold : ℚ
deriving DecidableEq, Repr

/-- Rust float `signum`: 1 for positive values and for +0, -1 for negative
values (ℚ has a single zero). -/
def float_signum (q : ℚ) : ℚ := if q < 0 then -1 else 1

/-- `CircleFittingModel::circle_fit_residual` (circle_fitting_model.rs:49):
linear radial residual plus a signed penalty once the centre is farther
from the origin than the SQUARED penalty threshold (the squaring is as in
the source). -/
def circle_fit_residual (self : CircleFittingModel) (points : List Point2Q) :
    List ℚ :=
  let centre_distance_to_origin := f32_sqrt
    (self.candidate_circle.centre.x ^ 2 + self.candidate_circle.centre.y ^ 2)
  let radius_threshold := self.centre_distance_penalty_threshold ^ 2
  let distance_penalty := max (centre_distance_to_origin - radius_threshold) 0
  points.map fun point =>
    let difference := f32_sqrt (normSquaredDiff point self.candidate_circle.centre) -
      self.candidate_circle.radius
    difference + float_signum difference * distance_penalty

/-- `CircleFittingModel::get_inlier_count` (circle_fitting_model.rs:93). -/
def get_inlier_count (residuals : List ℚ) (radius_variance : ℚ) : ℕ :=
  residuals.foldl
    (fun accum residual =>
      if |residual| ≤ radius_variance then accum + 1 else accum)
    0

/-- `CircleFittingModel::is_inlier` (circle_fitting_model.rs:104). -/
def model_is_inlier (single_residual_value radius_variance : ℚ) : Bool :=
  |single_residual_value| ≤ radius_variance

/-- `RansacResultCircle<T>` of circle_ransac.rs:8. -/
structure RansacResultCircleRwr where
  output : Option GenericCircle
  used_points : List Point2Q
deriving DecidableEq, Repr

/-- `RansacCircleWithRadius<T>` (circle_ransac.rs:16): unlike the ransac
crate, this component OWNS its random number generator. -/
structure RansacCircleWithRadius where
  circle_fitting_model : CircleFittingModel
  radius : ℚ
  unused_points : List Point2Q
  random_number_generator : ℕ → List ℕ

/-- `RansacCircleWithRadius::new` (circle_ransac.rs:30): the generator is
built with `StdRng::from_rng(thread_rng())`, i.e. from ambient thread-local
entropy, not from anything the caller passes; that entropy draw is made
explicit as the `thread_rng_entropy` argument. -/
def RansacCircleWithRadius.new (circle_fitting_model : CircleFittingModel)
    (unused_points : List Point2Q) (thread_rng_entropy : ℕ → List ℕ) :
    RansacCircleWithRadius :=
  { circle_fitting_model := circle_fitting_model
    radius := circle_fitting_model.candidate_circle.radius
    unused_points := unused_points
    random_number_generator := thread_rng_entropy }

/-- `RansacCircleWithRadius::circle_from_three_points` (circle_ransac.rs:113):
the same perpendicular-bisector construction as the ransac crate, duplicated
in the source as well. -/
def RansacCircleWithRadius.circle_from_three_points (a b c : Point2Q) :
    GenericCircle :=
  let ba_diff_x := b.x - a.x
  let ba_diff_y := b.y - a.y
  let cb_diff_x := c.x - b.x
  let cb_diff_y := c.y - b.y
  let ab_mid_x := (a.x + b.x) / 2
  let ab_mid_y := (a.y + b.y) / 2
  let bc_mid_x := (b.x + c.x) / 2
  let bc_mid_y := (b.y + c.y) / 2
  let ab_perpendicular_slope := -(ba_diff_x / ba_diff_y)
  let bc_perpendicular_slope := -(cb_diff_x / cb_diff_y)
  let centre_x := ((bc_mid_y - ab_mid_y) + ab_perpendicular_slope * ab_mid_x -
      bc_perpendicular_slope * bc_mid_x) /
    (ab_perpendicular_slope - bc_perpendicular_slope)
  let centre_y := ab_perpendicular_slope * (centre_x - ab_mid_x) + ab_mid_y
  let radius := f32_sqrt ((a.x - centre_x) ^ 2 + (a.y - centre_y) ^ 2)
  { radius := radius, centre := ⟨centre_x, centre_y⟩ }

/-- `RansacCircleWithRadius::next_candidate` (circle_ransac.rs:45).  The
fast radius heuristic here is one-sided and relative to the radius:
a candidate with `radius - R > 0.3 · R` keeps score 0 but is NOT removed
from the iteration; `max_by_key` (last maximum) then picks the best-scored
model, and the partition over all remaining points uses `is_inlier` on the
residuals.  Two places where the source panics are totalized: fewer than 3
sampled points (slice indexing), and `iterations = 0` (`.expect`). -/
def RansacCircleWithRadius.next_candidate (self : RansacCircleWithRadius)
    (iterations : ℕ) (radius_variance : ℚ) :
    RansacResultCircleRwr × RansacCircleWithRadius :=
  if self.unused_points.length < 2 then
    ({ output := none, used_points := [] }, self)
  else
    let scored := (List.range iterations).map fun t =>
      match choose_multiple self.unused_points 3 (self.random_number_generator t) with
      | a :: b :: c :: _ =>
        let model : CircleFittingModel :=
          { candidate_circle := RansacCircleWithRadius.circle_from_three_points a b c
            centre_distance_penalty_threshold :=
              self.circle_fitting_model.centre_distance_penalty_threshold }
        if self.radius * (3 / 10) < model.candidate_circle.radius - self.radius then
          (model, (0 : ℕ))
        else
          (model, get_inlier_count (circle_fit_residual model self.unused_points)
            radius_variance)
      | _ => (self.circle_fitting_model, 0)
    match scored.foldl
        (fun best c =>
          match best with
          | none => some c
          | some b => if b.2 ≤ c.2 then some c else some b)
        none with
    | none => ({ output := none, used_points := [] }, self)
    | some (best_candidate_model, _) =>
      let inlier_mask := (circle_fit_residual best_candidate_model
        self.unused_points).map fun residual_value =>
          model_is_inlier residual_value radius_variance
      let parts := partitionByMask inlier_mask self.unused_points
      ({ output := some best_candidate_model.candidate_circle, used_points := parts.1 },
       { self with unused_points := parts.2 })

/-! ## Detection pipeline decision logic:
crates/vision/src/calibration_center_circle_detection.rs -/

/-- `CenterCirclePoints<Pixel>`. -/
structure CenterCirclePoints where
  center : Point2Q
  points : List Point2Q
deriving DecidableEq, Repr

/-- `LineSegment<Pixel>` as its two endpoints. -/
abbrev LineSegmentQ := Point2Q × Point2Q

/-- `refine_center_circle` (calibration_center_circle_detection.rs:257):
fewer than 5 image-plane inliers returns `None` immediately; the ROI and
line-selection body after the guard is abstracted as `rest` (the claims
settled here depend only on the guard, and hold for EVERY body). -/
def refine_center_circle (used_points_original : List Point2Q)
    (rest : Option (CenterCirclePoints × LineSegmentQ × List LineSegmentQ)) :
    Option (CenterCirclePoints × LineSegmentQ × List LineSegmentQ) :=
  if used_points_original.length < 5 then none else rest

/-- The per-candidate decision of `detect_and_filter_circles`
(calibration_center_circle_detection.rs:782-800): `continue_processing` is
the conjunction of the y-position and circumference filters; with
refinement enabled the candidate is replaced by the refinement output (or
dropped when that is `None`); with refinement disabled the candidate is
passed through unmodified. -/
def candidateDecision (continue_processing refine_enable : Bool)
    (used_points_original : List Point2Q) (circle_center_px : Point2Q) (score : ℚ)
    (refineRest : Option (CenterCirclePoints × LineSegmentQ × List LineSegmentQ)) :
    Option (CenterCirclePoints × Option LineSegmentQ × ℚ) :=
  match continue_processing, refine_enable with
  | true, true =>
    (refine_center_circle used_points_original refineRest).map fun v =>
      (v.1, some v.2.1, score)
  | true, false =>
    some ({ center := circle_center_px, points := used_points_original }, none, score)
  | false, _ => none

/-- A vertical-scan segment of `FilteredSegments` (u16 coordinates); the
source field `end` is a reserved word here, `stop` stands for it. -/
structure Segment where
  start : ℕ
  stop : ℕ
deriving DecidableEq, Repr

/-- A vertical scan line: its x position and its segments. -/
structure ScanLine where
  position : ℕ
  segments : List Segment
deriving DecidableEq, Repr

/-- The part of `FilteredSegments` the edge extraction reads. -/
structure FilteredSegments where
  vertical_scan_lines : List ScanLine
deriving DecidableEq, Repr

/-- `get_edges_from_segments` (calibration_center_circle_detection.rs:837):
a segment contributes BOTH endpoints whenever its midpoint
`(start + end) / 2` lies strictly below (greater than) the exclusion
threshold; u16→f32 conversions and the division by 2 are exact, so ℚ
reproduces them bit-for-bit. -/
def get_edges_from_segments (filtered_segments : FilteredSegments)
    (upper_points_exclusion_threshold_y : Option ℕ) : List Point2Q :=
  let y_exclusion_threshold : ℚ := (upper_points_exclusion_threshold_y.getD 0 : ℕ)
  filtered_segments.vertical_scan_lines.flatMap fun scan_line =>
    scan_line.segments.flatMap fun segment =>
      let center : ℚ := ((segment.start : ℚ) + (segment.stop : ℚ)) / 2
      if y_exclusion_threshold < center then
        [⟨(scan_line.position : ℚ), (segment.start : ℚ)⟩,
         ⟨(scan_line.position : ℚ), (segment.stop : ℚ)⟩]
      else []

/-- Modelled from the spec: `get_edges_canny` is called by the pipeline but
the crate version defining it is not among the sources; spec §4.4 fixes its
output as "a vector of (x,y) of surviving maxima, optionally filtered by
`y ≥ horizon_y`". -/
def get_edges_canny (surviving_maxima : List Point2Q) (horizon_y : Option ℕ) :
    List Point2Q :=
  match horizon_y with
  | none => surviving_maxima
  | some threshold => surviving_maxima.filter fun p => (threshold : ℚ) ≤ p.y

/-! ## Concrete evaluation inputs -/

/-- A 3×3 Gaussian-style kernel vector [1, 2, 1]. -/
def wKer : ℕ → ℤ := fun m => [1, 2, 1].getD m 0
/-- A small concrete test image (transposed layout, value (c+1)·(r+1)). -/
def wImg : TMat := fun c r => ((c : ℤ) + 1) * ((r : ℤ) + 1)

/-- The horizontal kernel of the C1 counterexample: a delta at tap 2. -/
def cexU : ℕ → ℤ := fun m => [0, 0, 1, 0, 0].getD m 0

/-- The vertical kernel of the C1/C5 failing input: its first half [1,2]
equals its unreversed second half [1,2], so `is_kernel_symmetric` accepts
it, but it is not palindromic. -/
def shiftKer : ℕ → ℤ := fun m => [1, 2, 3, 1, 2].getD m 0

/-- A 16×5 image with a single 1 at column 3, row 2 (transposed layout). -/
def cexImg : TMat := fun c r => if c = 3 ∧ r = 2 then 1 else 0

/-- A palindromic (mirror-symmetric) 5-tap kernel [1,2,3,2,1]. -/
def palKer : ℕ → ℤ := fun m => [1, 2, 3, 2, 1].getD m 0

/-- A 16×5 image with a single 1 at column 3, row 0 (transposed layout),
separating the two vertical accumulation paths for the kernel [1,2,3,1,2]. -/
def c5img : TMat := fun c r => if c = 3 ∧ r = 0 then 1 else 0

/-- Four points, the first three on the circle of radius 5 around the
origin and the fourth also on it. -/
def wP1 : Point2Q := ⟨5, 0⟩

/-- See `wP1`. -/
def wP2 : Point2Q := ⟨3, 4⟩

/-- See `wP1`. -/
def wP3 : Point2Q := ⟨-5, 0⟩

/-- See `wP1`. -/
def wP4 : Point2Q := ⟨0, 5⟩

/-- Parameters with target radius 5, inlier threshold 1, minimum chord
squared 1. -/
def wParams : ParametersQ := ⟨5, 1, 1⟩

/-- A transformation-RANSAC state over the four circle points, with the
identity projection (transformed = original). -/
def wState : RansacCircleWithTransformation :=
  ⟨wParams, [wP1, wP2, wP3, wP4], [wP1, wP2, wP3, wP4]⟩

/-- A generator stream choosing all four points in order on every call. -/
def wGen : ℕ → List ℕ := fun _ => [0, 1, 2, 3]

/-- The circle of radius 5 around the origin. -/
def wCircle : CircleQ := ⟨⟨0, 0⟩, 5⟩

/-- The result of one `next_candidate` call on `wState` with `wGen`: the
fitted circle, all four points as inliers, normalized score 1. -/
def wResult : RansacResultCircleWithTransformation :=
  ⟨wCircle, [wP1, wP2, wP3, wP4], [wP1, wP2, wP3, wP4], 1⟩

/-- A fitting model whose target radius 100 is far from the radius-5 input
points. -/
def cexFarModel : CircleFittingModel := ⟨⟨100, ⟨1, 0⟩⟩, 10⟩

/-- A fitting model with target radius 5. -/
def cexModel : CircleFittingModel := ⟨⟨5, ⟨1, 0⟩⟩, 10⟩

/-- One possible ambient-entropy stream: `choose_multiple` picks indices
0, 1, 2. -/
def entropyA : ℕ → List ℕ := fun _ => [0, 1, 2]

/-- Another possible ambient-entropy stream: indices 0, 1, 3. -/
def entropyB : ℕ → List ℕ := fun _ => [0, 1, 3]

/-- Three points on the radius-5 circle around the origin plus (6,0),
which lies on a different circle through the first two. -/
def cexPointsRwr : List Point2Q := [⟨5, 0⟩, ⟨3, 4⟩, ⟨-5, 0⟩, ⟨6, 0⟩]

/-- One scan line at x = 10 with a single segment spanning rows 0..100:
its midpoint 50 is below a horizon of 40, yet its `start` endpoint y = 0
is far above it. -/
def cexFS : FilteredSegments := ⟨[⟨10, [⟨0, 100⟩]⟩]⟩
/-! ## Shared arithmetic lemmas -/

lemma asr_zero (v : ℤ) : asr v 0 = v := by
  unfold asr
  norm_num

lemma clampI_of_mem (lo hi v : ℤ) (h1 : lo ≤ v) (h2 : v ≤ hi) : clampI lo hi v = v := by
  unfold clampI
  rw [min_eq_left h2, max_eq_right h1]

/-- Splitting a sum over an odd range into the middle index and mirrored
pairs, the shape of the symmetric accumulation path. -/
lemma sum_split_middle (K : ℕ) (hK : K % 2 = 1) (f : ℕ → ℤ) :
    ∑ k ∈ Finset.range K, f k =
      f (K / 2) + ∑ i ∈ Finset.range (K / 2), (f i + f (K - 1 - i)) := by
  obtain ⟨kh, rfl⟩ : ∃ kh, K = 2 * kh + 1 := ⟨K / 2, by omega⟩
  have hkh : (2 * kh + 1) / 2 = kh := by omega
  rw [hkh, Finset.sum_add_distrib]
  have h1 := Finset.sum_Ico_consecutive f (Nat.zero_le kh)
    (show kh ≤ 2 * kh + 1 by omega)
  have h2 := Finset.sum_eq_sum_Ico_succ_bot (show kh < 2 * kh + 1 by omega) f
  have h3 : ∑ k ∈ Finset.Ico (kh + 1) (2 * kh + 1), f k =
      ∑ i ∈ Finset.range kh, f (kh + 1 + i) := by
    rw [Finset.sum_Ico_eq_sum_range]
    have he : 2 * kh + 1 - (kh + 1) = kh := by omega
    rw [he]
  have h4 : ∑ i ∈ Finset.range kh, f (kh + 1 + i) =
      ∑ i ∈ Finset.range kh, f (2 * kh + 1 - 1 - i) := by
    rw [← Finset.sum_range_reflect (fun i => f (kh + 1 + i)) kh]
    apply Finset.sum_congr rfl
    intro i hi
    simp only [Finset.mem_range] at hi
    congr 1
    omega
  rw [Finset.range_eq_Ico, ← h1, h2, h3, h4, ← Finset.range_eq_Ico]
  ring

/-! ## Claim C1 -/

/-- C1 (amended): for every odd K ≥ 3, at every pixel outside the border of
width K/2, the horizontal-then-vertical piecewise convolution with vectors
u, v equals `direct_convolution_mut` with the outer-product kernel u·vᵀ,
comparing modulo the shared shift/clamp (no shift, and no intermediate
value of the horizontal pass saturates), provided the vertical kernel is
genuinely palindromic whenever `is_kernel_symmetric` classifies it as
symmetric (automatic for K = 3; the classification tests the unreversed
halves, so for K ≥ 5 it can fire on non-palindromic kernels, for which the
claim fails — see the counterexample). -/
theorem C1_piecewise_2d_matches_direct_outer (K nrows ncols scale : ℕ)
    (u v : ℕ → ℤ) (lo hi : ℤ) (img dst0 : TMat) (c r : ℕ)
    (hK : K % 2 = 1) (hK3 : 3 ≤ K)
    (hc1 : K / 2 ≤ c) (hc2 : c < ncols - K / 2)
    (hr1 : K / 2 ≤ r) (hr2 : r < nrows - K / 2)
    (hsh : calculate_divisor scale = 0)
    (hrange : ∀ k < K, lo ≤ horizSum K u img (c - K / 2 + k) r ∧
      horizSum K u img (c - K / 2 + k) r ≤ hi)
    (hsymm : is_kernel_symmetric K v = true → ∀ i < K, v i = v (K - 1 - i)) :
    piecewise_2d_convolution_mut K nrows ncols u v scale lo hi img dst0 c r =
      direct_convolution_mut K nrows ncols (outerKernel u v) scale lo hi img dst0 c r := by
  have hkh1 : 1 ≤ K / 2 := by omega
  have h2d : piecewise_2d_convolution_mut K nrows ncols u v scale lo hi img dst0 =
      piecewise_vertical_convolution_mut K nrows ncols v scale lo hi
        (piecewise_horizontal_convolution_mut K nrows ncols u scale lo hi img dst0)
        (piecewise_horizontal_convolution_mut K nrows ncols u scale lo hi img dst0) := rfl
  set h := piecewise_horizontal_convolution_mut K nrows ncols u scale lo hi img dst0 with hhdef
  have hval : ∀ k, k < K → h (c - K / 2 + k) r = horizSum K u img (c - K / 2 + k) r := by
    intro k hk
    have hcol : c - K / 2 + k < ncols := by omega
    rw [hhdef]
    unfold piecewise_horizontal_convolution_mut
    rw [if_pos ⟨hcol, hr1, hr2⟩, hsh, asr_zero,
      clampI_of_mem _ _ _ (hrange k hk).1 (hrange k hk).2]
  set T : ℤ := ∑ k ∈ Finset.range K, v k * h (c - K / 2 + k) r with hT
  have hnaive : vertAccNaive K v h c r = T := by
    rw [hT]
    unfold vertAccNaive
    exact Finset.sum_congr rfl fun k _ => mul_comm _ _
  have hrem : vertAccRemainder K v h c r = T := rfl
  have hsymmAcc : is_kernel_symmetric K v = true → vertAccSymmetric K v h c r = T := by
    intro hsy
    have hodd : is_ksize_odd K = true := by
      unfold is_ksize_odd
      simpa using hK
    unfold vertAccSymmetric
    rw [hodd, if_pos rfl, hT, sum_split_middle K hK (fun k => v k * h (c - K / 2 + k) r)]
    have hmid : c - K / 2 + K / 2 = c := by omega
    rw [hmid]
    have hpair : ∀ i ∈ Finset.range (K / 2),
        (h (c - K / 2 + i) r + h (c - K / 2 + (K - 1 - i)) r) * v i =
          (v i * h (c - K / 2 + i) r + v (K - 1 - i) * h (c - K / 2 + (K - 1 - i)) r) := by
      intro i hi
      simp only [Finset.mem_range] at hi
      have hvi : v i = v (K - 1 - i) := hsymm hsy i (by omega)
      rw [← hvi]
      ring
    rw [Finset.sum_congr rfl hpair]
    ring
  have hcover : inChunkRows nrows r ∨ (¬ inChunkRows nrows r ∧ inRemainderRows K nrows r) := by
    unfold inChunkRows inRemainderRows
    omega
  set S : ℤ := ∑ kj ∈ Finset.range K, ∑ ki ∈ Finset.range K,
    outerKernel u v ki kj * img (c - K / 2 + kj) (r - K / 2 + ki) with hS
  have hTS : T = S := by
    rw [hT, hS]
    apply Finset.sum_congr rfl
    intro k hk
    simp only [Finset.mem_range] at hk
    rw [hval k hk]
    unfold horizSum
    rw [Finset.mul_sum]
    apply Finset.sum_congr rfl
    intro m _
    unfold outerKernel
    ring
  have hRHS : direct_convolution_mut K nrows ncols (outerKernel u v) scale lo hi
      img dst0 c r = clampI lo hi S := by
    unfold direct_convolution_mut
    rw [if_pos ⟨⟨hc1, hc2⟩, hr1, hr2⟩, hsh, asr_zero, ← hS]
  have hLHS : piecewise_vertical_convolution_mut K nrows ncols v scale lo hi h h c r =
      clampI lo hi T := by
    unfold piecewise_vertical_convolution_mut
    rw [if_pos (⟨hc1, hc2⟩ : K / 2 ≤ c ∧ c < ncols - K / 2), hsh]
    rcases hcover with hch | ⟨hnch, hrm⟩
    · rw [if_pos hch, asr_zero]
      by_cases hsy : is_kernel_symmetric K v = true
      · rw [if_pos hsy, hsymmAcc hsy]
      · rw [if_neg hsy, hnaive]
    · rw [if_neg hnch, if_pos hrm, asr_zero, hrem]
  rw [h2d, hLHS, hRHS, hTS]



/-- Witness for C1: the amended equivalence evaluated at a concrete 5×3
image with the separable kernel [1,2,1]⊗[1,2,1] at interior pixel (1,2). -/
theorem C1_piecewise_2d_matches_direct_outer_witness :
    piecewise_2d_convolution_mut 3 5 3 wKer wKer 1 (-32768) 32767 wImg
        (fun _ _ => 0) 1 2 =
      direct_convolution_mut 3 5 3 (outerKernel wKer wKer) 1 (-32768) 32767 wImg
        (fun _ _ => 0) 1 2 :=
  C1_piecewise_2d_matches_direct_outer 3 5 3 1 wKer wKer (-32768) 32767 wImg
    (fun _ _ => 0) 1 2
    (by decide) (by decide) (by decide) (by decide) (by decide) (by decide)
    (by decide) (by decide) (by decide)




/-- Counterexample to C1 as stated: with K = 5, u the delta kernel and
v = [1,2,3,1,2], at interior pixel (2,2), with no shift (scale 1) and no
saturation anywhere, the piecewise pipeline produces 2 while the direct
convolution with the outer-product kernel produces 1. -/
theorem C1_counterexample_half_equal_kernel :
    piecewise_2d_convolution_mut 5 16 5 cexU shiftKer 1 (-32768) 32767 cexImg
        (fun _ _ => 0) 2 2 = 2 ∧
      direct_convolution_mut 5 16 5 (outerKernel cexU shiftKer) 1 (-32768) 32767
        cexImg (fun _ _ => 0) 2 2 = 1 := by
  decide


/-! ## List-level lemmas for the RANSAC component -/

/-- A mask at least as long as the point list partitions it without loss. -/
lemma partitionByMask_length (mask : List Bool) (pts : List Point2Q)
    (h : mask.length = pts.length) :
    (partitionByMask mask pts).1.length + (partitionByMask mask pts).2.length =
      pts.length := by
  induction mask generalizing pts with
  | nil =>
    cases pts with
    | nil => simp [partitionByMask]
    | cons p ps => simp at h
  | cons m ms ih =>
    cases pts with
    | nil => simp at h
    | cons p ps =>
      have hlen : ms.length = ps.length := by simpa using h
      have := ih ps hlen
      cases m <;> simp [partitionByMask, this] <;> omega

/-- The final mask of `get_best_candidate` is built by mapping over all
remaining points, hence has their length. -/
lemma get_best_candidate_mask_length (pts : List Point2Q) (iterations : ℕ)
    (parameters : ParametersQ) (g : ℕ → List ℕ) (circle : CircleQ)
    (mask : List Bool) (score : ℚ)
    (h : get_best_candidate pts iterations parameters g = some (circle, mask, score)) :
    mask.length = pts.length := by
  unfold get_best_candidate at h
  by_cases hlt : pts.length < 3
  · rw [if_pos hlt] at h
    exact absurd h (by simp)
  · rw [if_neg hlt] at h
    simp only [Option.map_eq_some'] at h
    obtain ⟨bc, _, hbuild⟩ := h
    unfold buildFinalResult at hbuild
    injection hbuild with h1 h2
    injection h2 with h2 h3
    rw [← h2]
    simp

/-- Partitioning two pointwise-related lists by the same mask keeps the
partitions pointwise related. -/
lemma partitionByMask_forall2 {R : Point2Q → Point2Q → Prop} :
    ∀ (mask : List Bool) (as bs : List Point2Q), List.Forall₂ R as bs →
      List.Forall₂ R (partitionByMask mask as).1 (partitionByMask mask bs).1 ∧
      List.Forall₂ R (partitionByMask mask as).2 (partitionByMask mask bs).2 := by
  intro mask
  induction mask with
  | nil =>
    intro as bs _
    constructor <;> simp [partitionByMask]
  | cons m ms ih =>
    intro as bs hab
    cases hab with
    | nil =>
      constructor <;> simp [partitionByMask]
    | cons hR hrest =>
      have := ih _ _ hrest
      cases m <;> simp only [partitionByMask] <;>
        exact ⟨by simp [this.1, this.2, hR], by simp [this.1, this.2, hR]⟩

/-! ## Claim C3 -/

/-- C3: in every RANSAC iteration, a sampled triple is rejected for
near-collinearity exactly when ALL THREE pairwise squared distances are
below the stored minimum chord squared `D² = (2·R·sin(π/8))²`; with at
least one distance at or above `D²` the iteration proceeds to the
three-point fit (followed by the fast radius check and scoring). -/
theorem C3_collinearity_rejection_iff (parameters : ParametersQ)
    (point1 point2 point3 : Point2Q) (rest : List Point2Q) :
    ((normSquaredDiff point1 point2 < parameters.minimum_furthest_points_distance_squared ∧
      normSquaredDiff point2 point3 < parameters.minimum_furthest_points_distance_squared ∧
      normSquaredDiff point3 point1 < parameters.minimum_furthest_points_distance_squared) →
      attemptCandidate parameters (point1 :: point2 :: point3 :: rest) = none) ∧
    ((parameters.minimum_furthest_points_distance_squared ≤ normSquaredDiff point1 point2 ∨
      parameters.minimum_furthest_points_distance_squared ≤ normSquaredDiff point2 point3 ∨
      parameters.minimum_furthest_points_distance_squared ≤ normSquaredDiff point3 point1) →
      attemptCandidate parameters (point1 :: point2 :: point3 :: rest) =
        (if 3 / 2 * parameters.inlier_threshold_on_residual <
            ((circle_from_three_points point1 point2 point3).radius -
              parameters.radius) ^ 2 then
          none
        else
          some (circle_from_three_points point1 point2 point3,
            scoreOverSample parameters
              (circle_from_three_points point1 point2 point3).center
              (point1 :: point2 :: point3 :: rest)))) := by
  constructor
  · intro h
    simp only [attemptCandidate]
    rw [if_pos h]
  · intro h
    have hneg : ¬(normSquaredDiff point1 point2 <
        parameters.minimum_furthest_points_distance_squared ∧
      normSquaredDiff point2 point3 <
        parameters.minimum_furthest_points_distance_squared ∧
      normSquaredDiff point3 point1 <
        parameters.minimum_furthest_points_distance_squared) := by
      rcases h with h | h | h
      · exact fun hc => absurd hc.1 (not_lt.mpr h)
      · exact fun hc => absurd hc.2.1 (not_lt.mpr h)
      · exact fun hc => absurd hc.2.2 (not_lt.mpr h)
    simp only [attemptCandidate]
    rw [if_neg hneg]

unseal Rat.add Rat.mul Rat.inv Rat.sub in
/-- Witness for C3: a triple on the radius-5 circle with chords longer
than the minimum proceeds to the fit and is accepted with sample score 4. -/
theorem C3_collinearity_rejection_iff_witness :
    attemptCandidate wParams [wP1, wP2, wP3, wP4] = some (wCircle, 4) := by
  have h := (C3_collinearity_rejection_iff wParams wP1 wP2 wP3 [wP4]).2 (by decide)
  rw [h]
  decide

/-! ## Claim C4 -/

/-- C4 (amended): in the ransac crate's `get_best_candidate` — the RANSAC
used by the detection pipeline — a fitted candidate that survived the
collinearity guard is rejected by the fast radius check IFF
`(radius − R)² > 1.5·τ`.  The separate, otherwise-unused calibration crate
`RansacCircleWithRadius::next_candidate` instead applies the one-sided
`radius − R > 0.3·R` heuristic, and only zeroes the score rather than
rejecting (see the counterexample). -/
theorem C4_fast_radius_check_iff (parameters : ParametersQ)
    (point1 point2 point3 : Point2Q) (rest : List Point2Q)
    (h : parameters.minimum_furthest_points_distance_squared ≤
        normSquaredDiff point1 point2 ∨
      parameters.minimum_furthest_points_distance_squared ≤
        normSquaredDiff point2 point3 ∨
      parameters.minimum_furthest_points_distance_squared ≤
        normSquaredDiff point3 point1) :
    (attemptCandidate parameters (point1 :: point2 :: point3 :: rest) = none ↔
      3 / 2 * parameters.inlier_threshold_on_residual <
        ((circle_from_three_points point1 point2 point3).radius -
          parameters.radius) ^ 2) := by
  have hneg : ¬(normSquaredDiff point1 point2 <
      parameters.minimum_furthest_points_distance_squared ∧
    normSquaredDiff point2 point3 <
      parameters.minimum_furthest_points_distance_squared ∧
    normSquaredDiff point3 point1 <
      parameters.minimum_furthest_points_distance_squared) := by
    rcases h with h | h | h
    · exact fun hc => absurd hc.1 (not_lt.mpr h)
    · exact fun hc => absurd hc.2.1 (not_lt.mpr h)
    · exact fun hc => absurd hc.2.2 (not_lt.mpr h)
  simp only [attemptCandidate]
  rw [if_neg hneg]
  by_cases hrad : 3 / 2 * parameters.inlier_threshold_on_residual <
      ((circle_from_three_points point1 point2 point3).radius -
        parameters.radius) ^ 2
  · rw [if_pos hrad]
    simp [hrad]
  · rw [if_neg hrad]
    simp [hrad]

unseal Rat.add Rat.mul Rat.inv Rat.sub in
/-- Witness for C4: with target radius 100 and τ = 1, the radius-5 fit has
`(5 − 100)² > 1.5` and the iteration is rejected. -/
theorem C4_fast_radius_check_iff_witness :
    attemptCandidate ⟨100, 1, 1⟩ [wP1, wP2, wP3] = none := by
  exact (C4_fast_radius_check_iff ⟨100, 1, 1⟩ wP1 wP2 wP3 [] (by decide)).mpr
    (by decide)

unseal Rat.add Rat.mul Rat.inv Rat.sub in
/-- Counterexample to C4 as stated: `RansacCircleWithRadius::next_candidate`
(a cited `next_candidate`) RETURNS a candidate whose radius deviation
satisfies `(radius − R)² > 1.5·τ` (radius 5 against target 100, τ = 1),
which the claim says the fast radius check must reject. -/
theorem C4_counterexample_radius_heuristic_with_radius :
    (((RansacCircleWithRadius.new cexFarModel [wP1, wP2, wP3]
        entropyA).next_candidate 1 1).1).output = some ⟨5, ⟨0, 0⟩⟩ ∧
    3 / 2 * (1 : ℚ) < ((5 : ℚ) - 100) ^ 2 := by
  decide

/-! ## Claim C5 -/

/-- C5: the symmetric-pair optimization of the vertical pass is gated by a
misclassifying test.  `is_kernel_symmetric` compares the first half of the
kernel with the UNREVERSED second half, so (i) the genuinely
mirror-symmetric 5-tap kernel [1,2,3,2,1] is classified asymmetric (the
pair path the claim mandates is not taken), and (ii) the non-palindromic
kernel [1,2,3,1,2] is classified symmetric and sent down the pair path,
whose output (2, at column 2, row 0 of the image with a single 1 in
column 3) differs from the naive accumulation (1) on the same kernel and
input — the two branches of `piecewise_vertical_convolution_mut`
contradict each other. -/
theorem C5_symmetry_classification_bug :
    is_kernel_symmetric 5 palKer = false ∧
    (∀ i < 5, palKer i = palKer (5 - 1 - i)) ∧
    is_kernel_symmetric 5 shiftKer = true ∧
    ¬ (∀ i < 5, shiftKer i = shiftKer (5 - 1 - i)) ∧
    piecewise_vertical_convolution_mut 5 16 5 shiftKer 1 (-32768) 32767 c5img
      (fun _ _ => 0) 2 0 = 2 ∧
    vertAccNaive 5 shiftKer c5img 2 0 = 1 := by
  decide

/-! ## Claim C6 -/

/-- C6 (amended): every edge point returned by the segment-based path comes
from a scan line (giving its x) and a segment whose midpoint
`(start + end)/2` lies strictly beyond the exclusion threshold, with y one
of the segment ENDPOINTS — which may individually lie above the horizon
(see the counterexample).  The Canny path (spec-modelled: its crate version
is absent from the sources) filters per point, so there `y ≥ horizon_y`
does hold. -/
theorem C6_edge_point_characterization :
    (∀ (fs : FilteredSegments) (thr : Option ℕ) (p : Point2Q),
      p ∈ get_edges_from_segments fs thr →
      ∃ sl ∈ fs.vertical_scan_lines, ∃ seg ∈ sl.segments,
        p.x = (sl.position : ℚ) ∧
        (p.y = (seg.start : ℚ) ∨ p.y = (seg.stop : ℚ)) ∧
        ((thr.getD 0 : ℕ) : ℚ) < ((seg.start : ℚ) + (seg.stop : ℚ)) / 2) ∧
    (∀ (surviving_maxima : List Point2Q) (threshold : ℕ) (p : Point2Q),
      p ∈ get_edges_canny surviving_maxima (some threshold) →
      (threshold : ℚ) ≤ p.y) := by
  constructor
  · intro fs thr p hp
    unfold get_edges_from_segments at hp
    simp only [List.mem_flatMap] at hp
    obtain ⟨sl, hsl, seg, hseg, hmem⟩ := hp
    refine ⟨sl, hsl, seg, hseg, ?_⟩
    by_cases hc : ((thr.getD 0 : ℕ) : ℚ) < ((seg.start : ℚ) + (seg.stop : ℚ)) / 2
    · rw [if_pos hc] at hmem
      simp only [List.mem_cons, List.mem_singleton, List.not_mem_nil, or_false] at hmem
      rcases hmem with h | h <;> subst h <;> simp [hc]
    · rw [if_neg hc] at hmem
      simp at hmem
  · intro surviving_maxima threshold p hp
    unfold get_edges_canny at hp
    simp only [List.mem_filter] at hp
    exact of_decide_eq_true hp.2

unseal Rat.add Rat.mul Rat.inv Rat.sub in
/-- Witness for C6: the point (10, 0) returned for the segment 0..100 on
scan line 10 with horizon 40 is characterized by the amended statement. -/
theorem C6_edge_point_characterization_witness :
    ∃ sl ∈ cexFS.vertical_scan_lines, ∃ seg ∈ sl.segments,
      (⟨10, 0⟩ : Point2Q).x = (sl.position : ℚ) ∧
      ((⟨10, 0⟩ : Point2Q).y = (seg.start : ℚ) ∨
       (⟨10, 0⟩ : Point2Q).y = (seg.stop : ℚ)) ∧
      (((some 40 : Option ℕ).getD 0 : ℕ) : ℚ) <
        ((seg.start : ℚ) + (seg.stop : ℚ)) / 2 :=
  C6_edge_point_characterization.1 cexFS (some 40) ⟨10, 0⟩ (by decide)

unseal Rat.add Rat.mul Rat.inv Rat.sub in
/-- Counterexample to C6 as stated: with exclusion threshold 40, the
segment path returns the edge point (10, 0), whose y = 0 lies strictly
above (less than) the horizon threshold. -/
theorem C6_counterexample_endpoint_above_horizon :
    (⟨10, 0⟩ : Point2Q) ∈ get_edges_from_segments cexFS (some 40) ∧
      ¬ ((40 : ℚ) ≤ (⟨10, 0⟩ : Point2Q).y) := by
  decide

/-! ## Claim C7 -/

/-- C7 (amended): the ransac crate's `next_candidate` is deterministic in
the caller-supplied generator: equal initial states and equal per-call
index streams give equal result sequences and equal final states, for any
number of calls.  (The component draws randomness only through the
mutably-borrowed generator argument; the calibration crate's
`RansacCircleWithRadius`, by contrast, seeds an internal generator from
thread-local entropy in `new` — see the counterexample.) -/
theorem C7_deterministic_in_caller_rng (st1 st2 : RansacCircleWithTransformation)
    (gens1 gens2 : ℕ → ℕ → List ℕ) (iterations callCount : ℕ)
    (hst : st1 = st2) (hg : gens1 = gens2) :
    runSequence iterations st1 gens1 callCount =
      runSequence iterations st2 gens2 callCount := by
  subst hst
  subst hg
  rfl

/-- Witness for C7: two two-call runs from the same state with the same
stream coincide. -/
theorem C7_deterministic_in_caller_rng_witness :
    runSequence 1 wState (fun _ => wGen) 2 = runSequence 1 wState (fun _ => wGen) 2 :=
  C7_deterministic_in_caller_rng wState wState (fun _ => wGen) (fun _ => wGen) 1 2
    rfl rfl

unseal Rat.add Rat.mul Rat.inv Rat.sub in
/-- Counterexample to C7 as stated: `RansacCircleWithRadius::new` draws its
generator from ambient thread-local entropy, so two constructions from
IDENTICAL caller-visible inputs (model and point set) can return different
circles from `next_candidate` — the cited component is not deterministic in
any caller-supplied generator, and it does draw module-level randomness. -/
theorem C7_counterexample_ambient_entropy :
    (((RansacCircleWithRadius.new cexModel cexPointsRwr
        entropyA).next_candidate 1 1).1).output ≠
    (((RansacCircleWithRadius.new cexModel cexPointsRwr
        entropyB).next_candidate 1 1).1).output := by
  decide

/-! ## Claim C8 -/

/-- C8: with fewer than 3 remaining (transformed) points — in particular
on empty or singleton input — `next_candidate` returns `None` and leaves
the unused-point collections untouched, in both RANSAC circle variants of
the ransac crate. -/
theorem C8_insufficient_points_returns_none :
    (∀ (self : RansacCircleWithTransformation) (g : ℕ → List ℕ) (iterations : ℕ),
      self.unused_points_transformed.length < 3 →
      self.next_candidate g iterations = (none, self)) ∧
    (∀ (self : RansacCircle) (g : ℕ → List ℕ) (iterations : ℕ),
      self.unused_points.length < 3 →
      self.next_candidate g iterations = (none, self)) := by
  constructor
  · intro self g iterations h
    unfold RansacCircleWithTransformation.next_candidate get_best_candidate
    rw [if_pos h]
  · intro self g iterations h
    unfold RansacCircle.next_candidate get_best_candidate
    rw [if_pos h]

/-- Witness for C8: a singleton state returns `None` unchanged. -/
theorem C8_insufficient_points_returns_none_witness :
    (⟨wParams, [wP1], [wP1]⟩ : RansacCircleWithTransformation).next_candidate
      wGen 10 = (none, ⟨wParams, [wP1], [wP1]⟩) :=
  C8_insufficient_points_returns_none.1 ⟨wParams, [wP1], [wP1]⟩ wGen 10 (by decide)

/-! ## Claim C9 -/

/-- C9: whenever `next_candidate` returns a result, the stored unused-point
collection shrinks by exactly the number of inlier (used) points in the
result: unconditionally for the transformed collection (and for the plain
`RansacCircle`), and for the original collection whenever it is parallel to
the transformed one (which holds for states built by `new`, claim C10). -/
theorem C9_unused_points_decrease_by_inliers :
    (∀ (self : RansacCircleWithTransformation) (g : ℕ → List ℕ) (iterations : ℕ)
        (res : RansacResultCircleWithTransformation)
        (stNew : RansacCircleWithTransformation),
      self.next_candidate g iterations = (some res, stNew) →
      self.unused_points_transformed.length =
        stNew.unused_points_transformed.length + res.used_points_transformed.length ∧
      (self.unused_points_original.length = self.unused_points_transformed.length →
        self.unused_points_original.length =
          stNew.unused_points_original.length + res.used_points_original.length)) ∧
    (∀ (self : RansacCircle) (g : ℕ → List ℕ) (iterations : ℕ)
        (res : RansacResultCircle) (stNew : RansacCircle),
      self.next_candidate g iterations = (some res, stNew) →
      self.unused_points.length =
        stNew.unused_points.length + res.used_points.length) := by
  constructor
  · intro self g iterations res stNew hcall
    unfold RansacCircleWithTransformation.next_candidate at hcall
    cases hgbc : get_best_candidate self.unused_points_transformed iterations
        self.parameters g with
    | none =>
      rw [hgbc] at hcall
      exact absurd (congrArg Prod.fst hcall) (by simp)
    | some triple =>
      obtain ⟨circle, mask, score⟩ := triple
      rw [hgbc] at hcall
      rw [Prod.mk.injEq, Option.some.injEq] at hcall
      obtain ⟨hres, hst⟩ := hcall
      subst hres
      subst hst
      have hmask : mask.length = self.unused_points_transformed.length :=
        get_best_candidate_mask_length _ _ _ _ _ _ _ hgbc
      have hT := partitionByMask_length mask self.unused_points_transformed hmask
      constructor
      · simp only
        omega
      · intro hOT
        have hO := partitionByMask_length mask self.unused_points_original (by omega)
        simp only
        omega
  · intro self g iterations res stNew hcall
    unfold RansacCircle.next_candidate at hcall
    cases hgbc : get_best_candidate self.unused_points iterations self.parameters g with
    | none =>
      rw [hgbc] at hcall
      exact absurd (congrArg Prod.fst hcall) (by simp)
    | some triple =>
      obtain ⟨circle, mask, score⟩ := triple
      rw [hgbc] at hcall
      rw [Prod.mk.injEq, Option.some.injEq] at hcall
      obtain ⟨hres, hst⟩ := hcall
      subst hres
      subst hst
      have hmask : mask.length = self.unused_points.length :=
        get_best_candidate_mask_length _ _ _ _ _ _ _ hgbc
      have hT := partitionByMask_length mask self.unused_points hmask
      simp only
      omega

unseal Rat.add Rat.mul Rat.inv Rat.sub in
/-- Witness for C9: a successful call on the four-point state consumes all
four points: 4 = 0 + 4. -/
theorem C9_unused_points_decrease_by_inliers_witness :
    wState.unused_points_transformed.length =
      (⟨wParams, [], []⟩ : RansacCircleWithTransformation).unused_points_transformed.length +
        wResult.used_points_transformed.length :=
  (C9_unused_points_decrease_by_inliers.1 wState wGen 1 wResult ⟨wParams, [], []⟩
    (by decide)).1

/-! ## Claim C10 -/

/-- C10: `RansacCircleWithTransformation` keeps its two point vectors
parallel: after `new`, the vectors are equal-length and the i-th
transformed point is the projection of the i-th original point; and every
pointwise relation between the two vectors is preserved by
`next_candidate` — for the remaining unused vectors and for the used
vectors of the returned result — because the same inlier mask partitions
both. -/
theorem C10_parallel_point_vectors :
    (∀ (parameters : ParametersQ) (points : List Point2Q)
        (transformer_function : Point2Q → Option Point2Q),
      List.Forall₂ (fun o t => transformer_function o = some t)
        (RansacCircleWithTransformation.new parameters points
          transformer_function).unused_points_original
        (RansacCircleWithTransformation.new parameters points
          transformer_function).unused_points_transformed) ∧
    (∀ (R : Point2Q → Point2Q → Prop) (self : RansacCircleWithTransformation)
        (g : ℕ → List ℕ) (iterations : ℕ)
        (res : RansacResultCircleWithTransformation)
        (stNew : RansacCircleWithTransformation),
      List.Forall₂ R self.unused_points_original self.unused_points_transformed →
      self.next_candidate g iterations = (some res, stNew) →
      (List.Forall₂ R stNew.unused_points_original stNew.unused_points_transformed ∧
       List.Forall₂ R res.used_points_original res.used_points_transformed)) := by
  constructor
  · intro parameters points transformer_function
    unfold RansacCircleWithTransformation.new
    induction points with
    | nil => simp
    | cons p ps ih =>
      cases hfp : transformer_function p with
      | none => simpa [List.filterMap_cons, hfp] using ih
      | some t =>
        simp only [List.filterMap_cons, hfp, Option.map_some, List.map_cons]
        exact List.Forall₂.cons hfp ih
  · intro R self g iterations res stNew hinv hcall
    unfold RansacCircleWithTransformation.next_candidate at hcall
    cases hgbc : get_best_candidate self.unused_points_transformed iterations
        self.parameters g with
    | none =>
      rw [hgbc] at hcall
      exact absurd (congrArg Prod.fst hcall) (by simp)
    | some triple =>
      obtain ⟨circle, mask, score⟩ := triple
      rw [hgbc] at hcall
      rw [Prod.mk.injEq, Option.some.injEq] at hcall
      obtain ⟨hres, hst⟩ := hcall
      subst hres
      subst hst
      have hparts := partitionByMask_forall2 mask
        self.unused_points_original self.unused_points_transformed hinv
      exact ⟨hparts.2, hparts.1⟩

unseal Rat.add Rat.mul Rat.inv Rat.sub in
/-- Witness for C10: with the identity relation on the four-point state,
both the leftover vectors and the used vectors of the result stay
pointwise equal. -/
theorem C10_parallel_point_vectors_witness :
    List.Forall₂ (fun o t : Point2Q => o = t)
      (⟨wParams, [], []⟩ : RansacCircleWithTransformation).unused_points_original
      (⟨wParams, [], []⟩ : RansacCircleWithTransformation).unused_points_transformed ∧
    List.Forall₂ (fun o t : Point2Q => o = t)
      wResult.used_points_original wResult.used_points_transformed :=
  C10_parallel_point_vectors.2 (fun o t => o = t) wState wGen 1 wResult
    ⟨wParams, [], []⟩ (List.forall₂_same.mpr fun _ _ => rfl) (by decide)

/-! ## Claim C2 -/

/-- C2 (amended): when a candidate passes the position and circumference
filters (`continue_processing = true`) but has fewer than 5 image-plane
inliers, `refine_center_circle` returns `None` regardless of the rest of
its body; `detect_and_filter_circles` then DROPS the candidate when
refinement is enabled — the candidate is returned unmodified only when
refinement is disabled. -/
theorem C2_low_inlier_candidate_behavior (used_points_original : List Point2Q)
    (circle_center_px : Point2Q) (score : ℚ)
    (rest : Option (CenterCirclePoints × LineSegmentQ × List LineSegmentQ))
    (h : used_points_original.length < 5) :
    candidateDecision true true used_points_original circle_center_px score rest =
      none ∧
    candidateDecision true false used_points_original circle_center_px score rest =
      some ({ center := circle_center_px, points := used_points_original }, none,
        score) := by
  constructor
  · simp only [candidateDecision, refine_center_circle]
    rw [if_pos h]
    rfl
  · rfl

/-- Witness for C2: a three-inlier candidate is dropped with refinement
on, and passed through with refinement off. -/
theorem C2_low_inlier_candidate_behavior_witness :
    candidateDecision true true [wP1, wP2, wP3] ⟨0, 0⟩ 1
      (some (⟨⟨0, 0⟩, []⟩, (wP1, wP2), [])) = none ∧
    candidateDecision true false [wP1, wP2, wP3] ⟨0, 0⟩ 1
      (some (⟨⟨0, 0⟩, []⟩, (wP1, wP2), [])) =
      some (⟨⟨0, 0⟩, [wP1, wP2, wP3]⟩, none, 1) :=
  C2_low_inlier_candidate_behavior [wP1, wP2, wP3] ⟨0, 0⟩ 1
    (some (⟨⟨0, 0⟩, []⟩, (wP1, wP2), [])) (by decide)

/-- Counterexample to C2 as stated: a candidate with 3 < 5 inliers that
passed both filters, with refinement enabled, maps to `None` in the
pipeline — it is discarded, not returned unmodified (not even with a
successful refinement body supplied). -/
theorem C2_counterexample_low_inlier_dropped :
    candidateDecision true true [wP1, wP2, wP3] ⟨0, 0⟩ 1
      (some (⟨⟨7, 7⟩, [wP4]⟩, (wP3, wP4), [(wP1, wP2)])) = none ∧
    ([wP1, wP2, wP3] : List Point2Q).length < 5 := by
  constructor
  · rfl
  · decide
